import Mathlib

/-!
Shallow embedding of the ETL job in `etl.py`.

The job reads song-metadata JSON records and log-event JSON records, and
derives five tables:
  * `songs_table`     : plain projection of the song records (no DISTINCT);
  * `artists_table`   : DISTINCT projection of the song records;
  * `users_table`     : DISTINCT projection of the `page == "NextSong"` log
                        events whose `TRIM(userId) <> ''`;
  * `time_table`      : DISTINCT calendar decomposition of the derived
                        `timestamp` column of the filtered log events;
  * `songplays_table` : inner join of the filtered log events against the
                        persisted `songs` and `artists` tables.

Modelling conventions:
  * JSON/SQL nullable columns are `Option` values; SQL equality in a filter or
    join position is `eqOpt`, which is never satisfied by NULL (three-valued
    logic collapsed to Bool, as Spark does in WHERE/ON positions).
  * Floating-point numbers (durations, lengths, coordinates) are modelled as
    exact rationals; the join compares them with exact equality, as the code
    does.
  * `ts` is modelled as a non-null integer (epoch milliseconds): a NULL `ts`
    would make the Python udf `lambda x: datetime.fromtimestamp(x/1000)` raise
    and abort the job, so it never yields an output row.
  * `datetime.fromtimestamp(x/1000)` produces a naive local wall-clock
    datetime.  We model the local timezone as a fixed offset `tz` in seconds
    east of UTC, and a naive datetime as its microsecond count `localMicros`
    on the shifted (local) timeline; two naive datetimes are equal iff their
    `localMicros` agree.
  * Parquet persistence followed by re-reading is modelled as the identity on
    table contents: `process_log_data` joins against exactly the rows that
    `process_song_data` produced.
  * `monotonically_increasing_id()` is modelled by an arbitrary per-run
    id-assignment function `idFn : Nat → Int` applied to the row position;
    Spark guarantees injectivity within a run but no stability across runs.
-/

/-- Raw song-metadata record, one per input JSON file/row.  All fields are
nullable after schema inference. -/
structure SongRecord where
  song_id : Option String
  title : Option String
  artist_id : Option String
  artist_name : Option String
  artist_location : Option String
  artist_latitude : Option ℚ
  artist_longitude : Option ℚ
  year : Option Int
  duration : Option ℚ
deriving DecidableEq

/-- Raw log-event record. `ts` is non-null epoch milliseconds (a null `ts`
aborts the job inside the timestamp udf and produces no output at all). -/
structure LogRecord where
  page : Option String
  userId : Option String
  firstName : Option String
  lastName : Option String
  gender : Option String
  level : Option String
  ts : Int
  song : Option String
  artist : Option String
  length : Option ℚ
  sessionId : Option Int
  location : Option String
  userAgent : Option String
deriving DecidableEq

/-- SQL equality in a WHERE/ON position: NULL compares unequal to everything,
including NULL. -/
def eqOpt {α : Type} [DecidableEq α] : Option α → Option α → Bool
  | some x, some y => decide (x = y)
  | _, _ => false

/-- Spark SQL TRIM: removes leading and trailing space characters (U+0020
only; other whitespace such as tab is not removed). -/
def sqlTrim (s : String) : String :=
  String.mk (((s.data.dropWhile (fun c => c = ' ')).reverse.dropWhile
    (fun c => c = ' ')).reverse)

/-- A naive (timezone-less) local wall-clock datetime, represented by its
microsecond count on the local timeline.  Equality of naive datetimes is
equality of this count. -/
structure LocalDT where
  localMicros : Int
deriving DecidableEq

/-- Model of Python `datetime.fromtimestamp(x)` for a local timezone that is a
fixed offset `tz` seconds east of UTC: the naive local wall-clock datetime of
the instant `x` epoch seconds (exact arithmetic in place of float/microsecond
rounding).  Its microsecond count is `⌊(x + tz) * 10^6⌋`, computed here with
integer arithmetic on the reduced fraction so that the definition evaluates by
kernel reduction; `fromtimestamp_floor` below proves the two forms equal. -/
def fromtimestamp (tz : Int) (x : ℚ) : LocalDT :=
  ⟨x.num * 1000000 / (x.den : Int) + tz * 1000000⟩

/-- The udf `lambda x: datetime.fromtimestamp(x/1000)` applied to the `ts`
column (epoch milliseconds); `Rat.divInt ts 1000` is the exact rational
quotient `ts / 1000`. -/
def get_timestamp (tz : Int) (ts : Int) : LocalDT :=
  fromtimestamp tz (Rat.divInt ts 1000)

/-- Seconds-since-local-epoch of a naive datetime (floor). -/
def LocalDT.secs (dt : LocalDT) : Int := dt.localMicros / 1000000

/-- Days-since-1970-01-01 of the local calendar date of a naive datetime. -/
def LocalDT.days (dt : LocalDT) : Int := dt.secs / 86400

/-- Second-of-day of a naive datetime, in [0, 86399]. -/
def LocalDT.secOfDay (dt : LocalDT) : Nat := (dt.secs % 86400).toNat

/-- A proleptic-Gregorian calendar date. -/
structure CivilDate where
  year : Int
  month : Nat
  day : Nat
deriving DecidableEq

/-- Civil date from days since 1970-01-01 (standard era/day-of-era
decomposition of the proleptic Gregorian calendar over 400-year cycles). -/
def civilOfDays (z : Int) : CivilDate :=
  let era : Int := (z + 719468) / 146097
  let doe : Nat := ((z + 719468) % 146097).toNat
  let yoe : Nat := (doe - doe / 1460 + doe / 36524 - doe / 146096) / 365
  let doy : Nat := doe - (365 * yoe + yoe / 4 - yoe / 100)
  let mp : Nat := (5 * doy + 2) / 153
  let d : Nat := doy - (153 * mp + 2) / 5 + 1
  let m : Nat := if mp < 10 then mp + 3 else mp - 9
  let y : Int := (yoe : Int) + era * 400 + (if m ≤ 2 then 1 else 0)
  ⟨y, m, d⟩

/-- Days since 1970-01-01 of a civil date (inverse direction, used only for
the ISO week-of-year computation). -/
def daysOfCivil (y : Int) (m : Nat) (d : Nat) : Int :=
  let ys : Int := if m ≤ 2 then y - 1 else y
  let era : Int := ys / 400
  let yoe : Nat := (ys - era * 400).toNat
  let mp : Nat := if 3 ≤ m then m - 3 else m + 9
  let doy : Nat := (153 * mp + 2) / 5 + d - 1
  let doe : Nat := yoe * 365 + yoe / 4 - yoe / 100 + doy
  era * 146097 + (doe : Int) - 719468

/-- Spark HOUR(timestamp). -/
def hourOf (dt : LocalDT) : Nat := dt.secOfDay / 3600

/-- Spark DAYOFMONTH(timestamp). -/
def dayOf (dt : LocalDT) : Nat := (civilOfDays dt.days).day

/-- Spark MONTH(timestamp). -/
def monthOf (dt : LocalDT) : Nat := (civilOfDays dt.days).month

/-- Spark YEAR(timestamp). -/
def yearOf (dt : LocalDT) : Int := (civilOfDays dt.days).year

/-- Spark DAYOFWEEK(timestamp): 1-indexed with Sunday = 1 (1970-01-01, day 0,
was a Thursday, hence value 5 at day 0). -/
def weekdayOf (dt : LocalDT) : Nat := ((dt.days + 4) % 7).toNat + 1

/-- Spark WEEKOFYEAR(timestamp): ISO-8601 week of the year (weeks start on
Monday; a date's week number is determined by the Thursday of its week). -/
def weekOf (dt : LocalDT) : Nat :=
  let d : Int := dt.days
  let thursday : Int := d - (d + 3) % 7 + 3
  let y : Int := (civilOfDays thursday).year
  (((thursday - daysOfCivil y 1 1).toNat) / 7) + 1

/-- Row of the `songs` output table. -/
structure SongRow where
  song_id : Option String
  title : Option String
  artist_id : Option String
  year : Option Int
  duration : Option ℚ
deriving DecidableEq

/-- Row of the `artists` output table. -/
structure ArtistRow where
  artist_id : Option String
  name : Option String
  location : Option String
  latitude : Option ℚ
  longitude : Option ℚ
deriving DecidableEq

/-- Row of the `users` output table. -/
structure UserRow where
  user_id : Option String
  first_name : Option String
  last_name : Option String
  gender : Option String
  level : Option String
deriving DecidableEq

/-- Row of the `time` output table. -/
structure TimeRow where
  start_time : LocalDT
  hour : Nat
  day : Nat
  week : Nat
  month : Nat
  year : Int
  weekday : Nat
deriving DecidableEq

/-- Row of the `songplays` output table, without the generated
`songplay_id` column (ids are attached by `withIds`). -/
structure SongplayRow where
  start_time : LocalDT
  user_id : Option String
  song_id : Option String
  artist_id : Option String
  session_id : Option Int
  location : Option String
  user_agent : Option String
  month : Nat
  year : Int
deriving DecidableEq

/-- The `songs` table: plain column projection of the song records, no
filtering and no DISTINCT. -/
def songs_table (recs : List SongRecord) : List SongRow :=
  recs.map (fun r => ⟨r.song_id, r.title, r.artist_id, r.year, r.duration⟩)

/-- Projection of a song record onto the artist columns. -/
def artistProj (r : SongRecord) : ArtistRow :=
  ⟨r.artist_id, r.artist_name, r.artist_location, r.artist_latitude,
    r.artist_longitude⟩

/-- The `artists` table: DISTINCT projection of the song records onto the
artist columns (distinct on the whole projected row). -/
def artists_table (recs : List SongRecord) : List ArtistRow :=
  (recs.map artistProj).dedup

/-- The `page == "NextSong"` filter applied to the raw log events (NULL page
compares unequal, so such rows are dropped). -/
def filterNextSong (logs : List LogRecord) : List LogRecord :=
  logs.filter (fun l => eqOpt l.page (some "NextSong"))

/-- The WHERE TRIM(userId) <> '' predicate: NULL userId yields NULL <> '',
which is not true, so the row is excluded. -/
def userIdKeep (l : LogRecord) : Bool :=
  match l.userId with
  | some s => decide (¬ sqlTrim s = "")
  | none => false

/-- The `users` table: DISTINCT projection of the filtered log events whose
trimmed userId is non-empty. -/
def users_table (logs : List LogRecord) : List UserRow :=
  (((filterNextSong logs).filter userIdKeep).map
    (fun l => (⟨l.userId, l.firstName, l.lastName, l.gender, l.level⟩ :
      UserRow))).dedup

/-- The calendar decomposition of one derived timestamp into a `time` row. -/
def timeRowOf (dt : LocalDT) : TimeRow :=
  ⟨dt, hourOf dt, dayOf dt, weekOf dt, monthOf dt, yearOf dt, weekdayOf dt⟩

/-- The `time` table: DISTINCT over the derived timestamp column of the
filtered log events, decomposed into calendar fields. -/
def time_table (tz : Int) (logs : List LogRecord) : List TimeRow :=
  ((filterNextSong logs).map (fun l => timeRowOf (get_timestamp tz l.ts))).dedup

/-- The songs-side join condition: s.title = l.song AND s.duration = l.length
(exact equality; NULL never matches). -/
def songMatch (s : SongRow) (l : LogRecord) : Bool :=
  eqOpt s.title l.song && eqOpt s.duration l.length

/-- The artists-side join condition: a.artist_id = s.artist_id AND
a.name = l.artist. -/
def artistMatch (a : ArtistRow) (s : SongRow) (l : LogRecord) : Bool :=
  eqOpt a.artist_id s.artist_id && eqOpt a.name l.artist

/-- The projected songplays row for one (log event, song, artist) join
match. -/
def songplayRow (tz : Int) (l : LogRecord) (s : SongRow) (a : ArtistRow) :
    SongplayRow :=
  ⟨get_timestamp tz l.ts, l.userId, s.song_id, a.artist_id, l.sessionId,
    l.location, l.userAgent, monthOf (get_timestamp tz l.ts),
    yearOf (get_timestamp tz l.ts)⟩

/-- All songplays rows contributed by a single filtered log event:
relational semantics of the double inner join. -/
def songplayContrib (tz : Int) (songs : List SongRow) (artists : List ArtistRow)
    (l : LogRecord) : List SongplayRow :=
  (songs.filter (fun s => songMatch s l)).flatMap
    (fun s => (artists.filter (fun a => artistMatch a s l)).map
      (fun a => songplayRow tz l s a))

/-- The `songplays` table (without ids): filtered log events inner-joined
against the persisted `songs` and `artists` tables. -/
def songplays_table (tz : Int) (songs : List SongRow)
    (artists : List ArtistRow) (logs : List LogRecord) : List SongplayRow :=
  (filterNextSong logs).flatMap (songplayContrib tz songs artists)

/-- `monotonically_increasing_id()`: attach the run's id of each row position
to the row.  `idFn` abstracts the run-dependent id assignment; Spark
guarantees its injectivity within a run, nothing across runs. -/
def withIds (idFn : Nat → Int) (rows : List SongplayRow) :
    List (Int × SongplayRow) :=
  rows.enum.map (fun p => (idFn p.1, p.2))

/-- The five outputs of one run of the job. -/
structure JobOutput where
  songs : List SongRow
  artists : List ArtistRow
  users : List UserRow
  time : List TimeRow
  songplays : List (Int × SongplayRow)
deriving DecidableEq

/-- One run of `main`: `process_song_data` persists `songs` and `artists`,
then `process_log_data` derives `users`, `time` and `songplays`, re-reading
the persisted stage-1 outputs for the join. -/
def runJob (tz : Int) (idFn : Nat → Int) (songRecs : List SongRecord)
    (logRecs : List LogRecord) : JobOutput :=
  let songs := songs_table songRecs
  let artists := artists_table songRecs
  { songs := songs
    artists := artists
    users := users_table logRecs
    time := time_table tz logRecs
    songplays := withIds idFn (songplays_table tz songs artists logRecs) }

/-- Sample song-metadata record used for concrete instantiations: song "T" by
artist "N" (ids S1/A1), duration 200 seconds. -/
def r0 : SongRecord :=
  ⟨some "S1", some "T", some "A1", some "N", some "Loc", none, none,
    some 1971, some 200⟩

/-- Sample NextSong log event matching `r0` exactly (song "T", artist "N",
length 200), played by user "7" at epoch instant 0. -/
def l0 : LogRecord :=
  ⟨some "NextSong", some "7", some "F", some "L", some "F", some "free",
    0, some "T", some "N", some 200, some 1, some "Loc", some "UA"⟩

/-- Song record sharing `song_id` "S1" with `rD` but with a different title:
two value-distinct song rows with the same key. -/
def rC : SongRecord :=
  ⟨some "S1", some "T1", some "A1", some "N1", none, none, none,
    some 1999, some 100⟩

/-- Song record sharing `song_id` "S1" with `rC` but with a different title. -/
def rD : SongRecord :=
  ⟨some "S1", some "T2", some "A1", some "N1", none, none, none,
    some 2000, some 150⟩

/-- Song record sharing `artist_id` "A1" with `rB` but with a different
artist name. -/
def rA : SongRecord :=
  ⟨some "S1", some "T1", some "A1", some "N1", none, none, none,
    some 1999, some 100⟩

/-- Song record sharing `artist_id` "A1" with `rA` but with a different
artist name. -/
def rB : SongRecord :=
  ⟨some "S2", some "T2", some "A1", some "N2", none, none, none,
    some 2000, some 150⟩

/-- NextSong log event whose userId is a single tab character: Spark TRIM
removes only spaces, so this row passes the `TRIM(userId) <> ''` filter. -/
def lTab : LogRecord :=
  ⟨some "NextSong", some "\t", none, none, none, some "paid", 0, none, none,
    none, none, none, none⟩

/-- Log event whose page is "Home" rather than "NextSong". -/
def eHome : LogRecord :=
  ⟨some "Home", some "7", none, none, none, none, 0, none, none,
    none, none, none, none⟩

/-- Two naive datetimes with equal microsecond counts are equal. -/
theorem LocalDT.ext' {a b : LocalDT} (h : a.localMicros = b.localMicros) :
    a = b := by
  cases a; cases b; simpa using h

/-- SQL equality holds exactly when both sides are the same non-NULL value. -/
theorem eqOpt_iff {α : Type} [DecidableEq α] (a b : Option α) :
    eqOpt a b = true ↔ ∃ x, a = some x ∧ b = some x := by
  cases a <;> cases b <;> simp [eqOpt, eq_comm]

/-- SQL equality against NULL never holds. -/
theorem eqOpt_none_right {α : Type} [DecidableEq α] (a : Option α) :
    eqOpt a none = false := by
  cases a <;> rfl

/-- The integer form of `fromtimestamp` agrees with the intended
floor-of-microseconds semantics `⌊(x + tz) * 10^6⌋`. -/
theorem fromtimestamp_floor (tz : Int) (x : ℚ) :
    (fromtimestamp tz x).localMicros
      = Int.floor ((x + (tz : ℚ)) * 1000000) := by
  have hx : x * 1000000 = Rat.divInt (x.num * 1000000) (x.den : Int) := by
    rw [Rat.divInt_eq_div]
    push_cast
    conv_lhs => rw [← Rat.num_div_den x]
    ring
  have h1 : Int.floor (x * (1000000 : ℚ)) = x.num * 1000000 / (x.den : Int) := by
    rw [hx, Rat.divInt_eq_div, Int.cast_natCast, Rat.floor_intCast_div_natCast]
  have h2 : (x + (tz : ℚ)) * 1000000 = x * 1000000 + ((tz * 1000000 : ℤ) : ℚ) := by
    push_cast; ring
  rw [fromtimestamp, h2, Int.floor_add_int, h1]

/-- On an integer millisecond timestamp the udf produces exactly
`ts` milliseconds shifted by the timezone offset. -/
theorem get_timestamp_eq (tz ts : Int) :
    get_timestamp tz ts = ⟨ts * 1000 + tz * 1000000⟩ := by
  apply LocalDT.ext'
  rw [get_timestamp, fromtimestamp_floor, Rat.divInt_eq_div]
  rw [show ((ts : ℚ) / ((1000 : ℤ) : ℚ) + (tz : ℚ)) * 1000000
      = ((ts * 1000 + tz * 1000000 : ℤ) : ℚ) from by push_cast; ring]
  rw [Int.floor_intCast]

/-- The Gregorian month computed by `civilOfDays` is always in [1, 12]. -/
theorem civilOfDays_month_bounds (z : Int) :
    1 ≤ (civilOfDays z).month ∧ (civilOfDays z).month ≤ 12 := by
  simp only [civilOfDays]
  constructor <;> split <;> omega

/-- The hour field is always in [0, 23]. -/
theorem hourOf_le (dt : LocalDT) : hourOf dt ≤ 23 := by
  unfold hourOf LocalDT.secOfDay
  generalize LocalDT.secs dt = s
  omega

/-- DAYOFWEEK is always in [1, 7]. -/
theorem weekdayOf_bounds (dt : LocalDT) :
    1 ≤ weekdayOf dt ∧ weekdayOf dt ≤ 7 := by
  unfold weekdayOf
  generalize LocalDT.days dt = d
  omega

/-- The single-event join contribution is non-empty exactly when some songs
row and some artists row satisfy all four join equalities. -/
theorem songplayContrib_ne_nil_iff (tz : Int) (songs : List SongRow)
    (artists : List ArtistRow) (l : LogRecord) :
    songplayContrib tz songs artists l ≠ [] ↔
      ∃ s ∈ songs, eqOpt s.title l.song = true ∧ eqOpt s.duration l.length = true ∧
        ∃ a ∈ artists, eqOpt a.artist_id s.artist_id = true ∧
          eqOpt a.name l.artist = true := by
  have hiff : songplayContrib tz songs artists l ≠ [] ↔
      ∃ r, r ∈ songplayContrib tz songs artists l :=
    ⟨fun h => List.exists_mem_of_ne_nil _ h, fun ⟨_, hr⟩ => List.ne_nil_of_mem hr⟩
  rw [hiff]
  simp only [songplayContrib, List.mem_flatMap, List.mem_filter, List.mem_map,
    songMatch, artistMatch, Bool.and_eq_true]
  constructor
  · rintro ⟨r, s, ⟨hs, hst, hsd⟩, a, ⟨ha, hai, han⟩, rfl⟩
    exact ⟨s, hs, hst, hsd, a, ha, hai, han⟩
  · rintro ⟨s, hs, hst, hsd, a, ha, hai, han⟩
    exact ⟨songplayRow tz l s a, s, ⟨hs, hst, hsd⟩, a, ⟨ha, hai, han⟩, rfl⟩

/-- C1: for a filtered (`page == "NextSong"`) log event, a songplays row
exists if and only if some songs row matches it with `title = song` and
`duration = length` (exact equality, NULL never matching) and some artists
row matches with `artist_id = song's artist_id` and `name = artist`; when no
such pair exists the contribution is the empty list — a silent drop, not an
error — and every contributed row really appears in the songplays table. -/
theorem songplays_row_exists_iff (tz : Int) (songs : List SongRow)
    (artists : List ArtistRow) (logs : List LogRecord) (l : LogRecord)
    (hl : l ∈ logs) (hpage : l.page = some "NextSong") :
    (songplayContrib tz songs artists l ≠ [] ↔
      ∃ s ∈ songs, eqOpt s.title l.song = true ∧ eqOpt s.duration l.length = true ∧
        ∃ a ∈ artists, eqOpt a.artist_id s.artist_id = true ∧
          eqOpt a.name l.artist = true)
    ∧ (∀ r ∈ songplayContrib tz songs artists l,
        r ∈ songplays_table tz songs artists logs) := by
  refine ⟨songplayContrib_ne_nil_iff tz songs artists l, fun r hr => ?_⟩
  refine List.mem_flatMap.mpr ⟨l, ?_, hr⟩
  simp [filterNextSong, List.mem_filter, hl, eqOpt, hpage]

/-- Witness for C1: the matching sample event joins `r0`'s song row and
artist row into an actual songplays row. -/
theorem songplays_row_exists_witness :
    songplayRow 0 l0 ⟨some "S1", some "T", some "A1", some 1971, some 200⟩
      ⟨some "A1", some "N", some "Loc", none, none⟩
      ∈ songplays_table 0 (songs_table [r0]) (artists_table [r0]) [l0] :=
  (songplays_row_exists_iff 0 (songs_table [r0]) (artists_table [r0]) [l0] l0
    (by decide) rfl).2 _ (by decide)

/-- C2 (counterexample): the claim that `songs.song_id` is unique for every
input fails — the songs projection performs no dedup, so two input records
with the same `song_id` (here with different titles) yield two songs rows
with the same `song_id`. -/
theorem songs_song_id_not_unique_on_dup_input :
    ¬ ((songs_table [rC, rD]).map (fun s => s.song_id)).Nodup := by decide

/-- C2 (amended): if the input song records carry pairwise-distinct
`song_id` values, then `song_id` is unique in the songs output (the
projection maps each input record to exactly one output row). -/
theorem songs_song_id_unique_of_nodup_input (recs : List SongRecord)
    (h : (recs.map (fun r => r.song_id)).Nodup) :
    ((songs_table recs).map (fun s => s.song_id)).Nodup := by
  simpa [songs_table, List.map_map, Function.comp] using h

/-- Witness for the amended C2 at a one-record input. -/
theorem songs_song_id_unique_witness :
    ([r0].map (fun r => r.song_id)).Nodup
    ∧ ((songs_table [r0]).map (fun s => s.song_id)).Nodup :=
  ⟨by decide, songs_song_id_unique_of_nodup_input [r0] (by decide)⟩

/-- Counting: a filter whose predicate pins down a key hits at most one
element of a list whose key projection is duplicate-free. -/
theorem filter_key_length_le_one {α β : Type} [DecidableEq β] (f : α → β)
    (p : α → Bool) (k : β) (hp : ∀ x, p x = true → f x = k) :
    ∀ l : List α, (l.map f).Nodup → (l.filter p).length ≤ 1 := by
  intro l
  induction l with
  | nil => simp
  | cons a t ih =>
    intro h
    rw [List.map_cons, List.nodup_cons] at h
    obtain ⟨ha, ht⟩ := h
    rw [List.filter_cons]
    by_cases hpa : p a = true
    · have hnil : t.filter p = [] := by
        rw [List.filter_eq_nil_iff]
        intro x hx hpx
        apply ha
        rw [hp a hpa, ← hp x hpx]
        exact List.mem_map_of_mem f hx
      simp [hpa, hnil]
    · simp only [hpa, if_false]
      exact ih ht

/-- Counting: a flatMap whose pieces have length at most one yields at most
one output element per input element. -/
theorem flatMap_length_le {α β : Type} (g : α → List β) :
    ∀ l : List α, (∀ x ∈ l, (g x).length ≤ 1) →
      (l.flatMap g).length ≤ l.length := by
  intro l
  induction l with
  | nil => simp
  | cons a t ih =>
    intro h
    rw [List.flatMap_cons, List.length_append, List.length_cons]
    have h1 := h a (List.mem_cons_self a t)
    have h2 := ih (fun x hx => h x (List.mem_cons_of_mem a hx))
    omega

/-- When no two songs rows share a `(title, duration)` key and no two artists
rows share an `(artist_id, name)` key, one log event joins to at most one
(song, artist) pair. -/
theorem songplayContrib_length_le_one (tz : Int) (songs : List SongRow)
    (artists : List ArtistRow) (l : LogRecord)
    (hs : (songs.map (fun s => (s.title, s.duration))).Nodup)
    (ha : (artists.map (fun a => (a.artist_id, a.name))).Nodup) :
    (songplayContrib tz songs artists l).length ≤ 1 := by
  unfold songplayContrib
  cases hsong : l.song with
  | none =>
    have hnil : songs.filter (fun s => songMatch s l) = [] := by
      rw [List.filter_eq_nil_iff]
      intro s _ hm
      rw [songMatch, Bool.and_eq_true, hsong, eqOpt_none_right] at hm
      exact absurd hm.1 (by simp)
    simp [hnil]
  | some tval =>
    cases hlen : l.length with
    | none =>
      have hnil : songs.filter (fun s => songMatch s l) = [] := by
        rw [List.filter_eq_nil_iff]
        intro s _ hm
        rw [songMatch, Bool.and_eq_true, hlen, eqOpt_none_right] at hm
        exact absurd hm.2 (by simp)
      simp [hnil]
    | some dval =>
      have hkey : ∀ s : SongRow, songMatch s l = true →
          (s.title, s.duration) = (some tval, some dval) := by
        intro s hm
        rw [songMatch, Bool.and_eq_true] at hm
        obtain ⟨h1, h2⟩ := hm
        obtain ⟨x, hx1, hx2⟩ := (eqOpt_iff _ _).mp h1
        obtain ⟨y, hy1, hy2⟩ := (eqOpt_iff _ _).mp h2
        rw [hsong] at hx2
        rw [hlen] at hy2
        cases hx2; cases hy2
        rw [hx1, hy1]
      have hfil := filter_key_length_le_one _ _ _ hkey songs hs
      cases hFeq : songs.filter (fun s => songMatch s l) with
      | nil => simp
      | cons s rest =>
        rw [hFeq] at hfil
        have hrest : rest = [] :=
          List.eq_nil_of_length_eq_zero
            (by rw [List.length_cons] at hfil; omega)
        subst hrest
        simp only [List.flatMap_cons, List.flatMap_nil, List.append_nil,
          List.length_map]
        cases haid : s.artist_id with
        | none =>
          have hnil : artists.filter (fun a => artistMatch a s l) = [] := by
            rw [List.filter_eq_nil_iff]
            intro a _ hm
            rw [artistMatch, Bool.and_eq_true, haid, eqOpt_none_right] at hm
            exact absurd hm.1 (by simp)
          simp [hnil]
        | some aidv =>
          cases hart : l.artist with
          | none =>
            have hnil : artists.filter (fun a => artistMatch a s l) = [] := by
              rw [List.filter_eq_nil_iff]
              intro a _ hm
              rw [artistMatch, Bool.and_eq_true, hart, eqOpt_none_right] at hm
              exact absurd hm.2 (by simp)
            simp [hnil]
          | some artv =>
            have hkey2 : ∀ a : ArtistRow, artistMatch a s l = true →
                (a.artist_id, a.name) = (some aidv, some artv) := by
              intro a hm
              rw [artistMatch, Bool.and_eq_true] at hm
              obtain ⟨h1, h2⟩ := hm
              obtain ⟨x, hx1, hx2⟩ := (eqOpt_iff _ _).mp h1
              obtain ⟨y, hy1, hy2⟩ := (eqOpt_iff _ _).mp h2
              rw [haid] at hx2
              rw [hart] at hy2
              cases hx2; cases hy2
              rw [hx1, hy1]
            exact filter_key_length_le_one _ _ _ hkey2 artists ha

/-- C3 (counterexample): the claim that songplays never has more rows than
the filtered log events fails — the songs table is projected without dedup,
so a duplicated song record makes one matching event join twice. -/
theorem songplays_count_exceeds_on_dup_songs :
    ¬ ((songplays_table 0 (songs_table [r0, r0]) (artists_table [r0, r0])
        [l0]).length ≤ (filterNextSong [l0]).length) := by decide

/-- C3 (amended): provided the persisted songs table has no two rows with the
same `(title, duration)` and the artists table has no two rows with the same
`(artist_id, name)`, each filtered log event produces at most one songplays
row, so the songplays row count is at most the filtered log-event count. -/
theorem songplays_count_le_filtered (tz : Int) (songs : List SongRow)
    (artists : List ArtistRow) (logs : List LogRecord)
    (hs : (songs.map (fun s => (s.title, s.duration))).Nodup)
    (ha : (artists.map (fun a => (a.artist_id, a.name))).Nodup) :
    (songplays_table tz songs artists logs).length
      ≤ (filterNextSong logs).length := by
  unfold songplays_table
  exact flatMap_length_le _ _
    (fun l _ => songplayContrib_length_le_one tz songs artists l hs ha)

/-- Witness for the amended C3 on the one-song, one-event sample. -/
theorem songplays_count_le_witness :
    ((songs_table [r0]).map (fun s => (s.title, s.duration))).Nodup
    ∧ ((artists_table [r0]).map (fun a => (a.artist_id, a.name))).Nodup
    ∧ (songplays_table 0 (songs_table [r0]) (artists_table [r0]) [l0]).length
        ≤ (filterNextSong [l0]).length :=
  ⟨by decide, by decide,
    songplays_count_le_filtered 0 (songs_table [r0]) (artists_table [r0]) [l0]
      (by decide) (by decide)⟩

/-- Every row of the time table is the calendar decomposition of its own
start_time. -/
theorem mem_time_table {tz : Int} {logs : List LogRecord} {r : TimeRow}
    (h : r ∈ time_table tz logs) :
    ∃ l ∈ filterNextSong logs, r = timeRowOf (get_timestamp tz l.ts) := by
  rw [time_table, List.mem_dedup] at h
  obtain ⟨l, hl, rfl⟩ := List.mem_map.mp h
  exact ⟨l, hl, rfl⟩

/-- C4: the derived timestamp column equals `ts` (epoch milliseconds) divided
by 1000 and converted to a local-timezone wall-clock datetime, per row
(microsecond count `⌊(ts/1000 + tz) * 10^6⌋`); and the time table has exactly
one row per distinct derived timestamp of the filtered log events —
start_time is duplicate-free and ranges over exactly those timestamps. -/
theorem time_table_one_row_per_timestamp (tz : Int) (logs : List LogRecord) :
    (∀ l ∈ filterNextSong logs,
      (get_timestamp tz l.ts).localMicros
        = Int.floor ((Rat.divInt l.ts 1000 + (tz : ℚ)) * 1000000))
    ∧ ((time_table tz logs).map (fun r => r.start_time)).Nodup
    ∧ (∀ t : LocalDT,
        t ∈ (time_table tz logs).map (fun r => r.start_time)
          ↔ ∃ l ∈ filterNextSong logs, get_timestamp tz l.ts = t) := by
  have hmem : ∀ r ∈ time_table tz logs, r = timeRowOf r.start_time := by
    intro r hr
    obtain ⟨l, _, rfl⟩ := mem_time_table hr
    rfl
  refine ⟨fun l _ => fromtimestamp_floor tz _, ?_, ?_⟩
  · exact List.Nodup.map_on
      (fun x hx y hy hxy => by rw [hmem x hx, hmem y hy, hxy])
      (List.nodup_dedup _)
  · intro t
    simp only [List.mem_map]
    constructor
    · rintro ⟨r, hr, rfl⟩
      obtain ⟨l, hl, rfl⟩ := mem_time_table hr
      exact ⟨l, hl, rfl⟩
    · rintro ⟨l, hl, rfl⟩
      refine ⟨timeRowOf (get_timestamp tz l.ts), ?_, rfl⟩
      rw [time_table, List.mem_dedup]
      exact List.mem_map_of_mem _ hl

/-- Witness for C4: start_time is duplicate-free on the sample input. -/
theorem time_table_nodup_witness :
    ((time_table 0 [l0]).map (fun r => r.start_time)).Nodup :=
  (time_table_one_row_per_timestamp 0 [l0]).2.1

/-- C5: every time-table row has hour in [0, 23], month in [1, 12] and
weekday in [1, 7] in the engine's 1-indexed Sunday = 1 convention: weekday
is 1 exactly on days congruent to 3 mod 7 since the epoch, and day 3
(1970-01-04) was a Sunday. -/
theorem time_row_bounds (tz : Int) (logs : List LogRecord) (r : TimeRow)
    (hr : r ∈ time_table tz logs) :
    r.hour ≤ 23 ∧ 1 ≤ r.month ∧ r.month ≤ 12 ∧ 1 ≤ r.weekday ∧ r.weekday ≤ 7
      ∧ (r.weekday = 1 ↔ r.start_time.days % 7 = 3) := by
  obtain ⟨l, _, rfl⟩ := mem_time_table hr
  refine ⟨hourOf_le _, (civilOfDays_month_bounds _).1,
    (civilOfDays_month_bounds _).2, (weekdayOf_bounds _).1,
    (weekdayOf_bounds _).2, ?_⟩
  show weekdayOf (get_timestamp tz l.ts) = 1
      ↔ (get_timestamp tz l.ts).days % 7 = 3
  unfold weekdayOf
  generalize (get_timestamp tz l.ts).days = d
  omega

/-- Witness for C5 at the sample row (1970-01-01, a Thursday, weekday 5). -/
theorem time_row_bounds_witness :
    (⟨⟨0⟩, 0, 1, 1, 1, 1970, 5⟩ : TimeRow).hour ≤ 23
    ∧ 1 ≤ (⟨⟨0⟩, 0, 1, 1, 1, 1970, 5⟩ : TimeRow).month
    ∧ (⟨⟨0⟩, 0, 1, 1, 1, 1970, 5⟩ : TimeRow).month ≤ 12
    ∧ 1 ≤ (⟨⟨0⟩, 0, 1, 1, 1, 1970, 5⟩ : TimeRow).weekday
    ∧ (⟨⟨0⟩, 0, 1, 1, 1, 1970, 5⟩ : TimeRow).weekday ≤ 7
    ∧ ((⟨⟨0⟩, 0, 1, 1, 1, 1970, 5⟩ : TimeRow).weekday = 1
        ↔ (⟨⟨0⟩, 0, 1, 1, 1, 1970, 5⟩ : TimeRow).start_time.days % 7 = 3) :=
  time_row_bounds 0 [l0] ⟨⟨0⟩, 0, 1, 1, 1, 1970, 5⟩ (by decide)

/-- C6 (counterexample): the claim that `artists.artist_id` is unique for
every input fails — DISTINCT is taken on the whole projected row, so two
records with the same `artist_id` but different artist names survive as two
distinct artists rows with the same `artist_id`. -/
theorem artists_artist_id_not_unique_on_conflicting_input :
    ¬ ((artists_table [rA, rB]).map (fun a => a.artist_id)).Nodup := by decide

/-- C6 (amended): if all input records with equal `artist_id` agree on the
whole projected artist attribute tuple, then `artist_id` is unique in the
artists output. -/
theorem artists_artist_id_unique_of_consistent (recs : List SongRecord)
    (h : ∀ ra ∈ recs, ∀ rb ∈ recs, ra.artist_id = rb.artist_id →
      artistProj ra = artistProj rb) :
    ((artists_table recs).map (fun a => a.artist_id)).Nodup := by
  unfold artists_table
  refine List.Nodup.map_on ?_ (List.nodup_dedup _)
  intro x hx y hy hxy
  rw [List.mem_dedup] at hx hy
  obtain ⟨ra, hra, rfl⟩ := List.mem_map.mp hx
  obtain ⟨rb, hrb, rfl⟩ := List.mem_map.mp hy
  exact h ra hra rb hrb hxy

/-- Witness for the amended C6 at a one-record input. -/
theorem artists_artist_id_unique_witness :
    (∀ ra ∈ [rA], ∀ rb ∈ [rA], ra.artist_id = rb.artist_id →
      artistProj ra = artistProj rb)
    ∧ ((artists_table [rA]).map (fun a => a.artist_id)).Nodup :=
  ⟨by decide, artists_artist_id_unique_of_consistent [rA] (by decide)⟩

/-- C7 (counterexample): the claim that every users row has a user id that is
non-whitespace after trimming fails — Spark TRIM removes only the space
character, so a userId consisting of a single tab passes the
`TRIM(userId) <> ''` filter and its trimmed value is whitespace-only. -/
theorem users_row_whitespace_after_trim :
    ¬ (∀ row ∈ users_table [lTab], ∃ s, row.user_id = some s
        ∧ ((sqlTrim s).data.any (fun c => !c.isWhitespace)) = true) := by
  intro h
  have hrow : (⟨some "\t", none, none, none, some "paid"⟩ : UserRow)
      ∈ users_table [lTab] := by decide
  obtain ⟨s, hs, hany⟩ := h _ hrow
  have hseq : "\t" = s := by injection hs
  subst hseq
  exact absurd hany (by decide)

/-- C7 (amended): every users row has a non-NULL user id whose value after
removing leading and trailing spaces (U+0020 only — other whitespace such as
tab is not trimmed and may remain) is non-empty; in particular empty,
all-space and NULL user ids are excluded. -/
theorem users_user_id_some_trim_ne_empty (logs : List LogRecord) (row : UserRow)
    (hrow : row ∈ users_table logs) :
    ∃ s, row.user_id = some s ∧ sqlTrim s ≠ "" := by
  rw [users_table, List.mem_dedup] at hrow
  obtain ⟨l, hl, rfl⟩ := List.mem_map.mp hrow
  rw [List.mem_filter] at hl
  obtain ⟨-, hkeep⟩ := hl
  unfold userIdKeep at hkeep
  cases hu : l.userId with
  | none => rw [hu] at hkeep; exact absurd hkeep (by simp)
  | some s =>
    rw [hu] at hkeep
    exact ⟨s, by simp [hu], by simpa using hkeep⟩

/-- Witness for the amended C7 at the sample event's users row. -/
theorem users_user_id_witness :
    ∃ s, (⟨some "7", some "F", some "L", some "F", some "free"⟩ :
        UserRow).user_id = some s ∧ sqlTrim s ≠ "" :=
  users_user_id_some_trim_ne_empty [l0] _ (by decide)

/-- C8: a log event whose page is not "NextSong" contributes no rows to the
users, time or songplays outputs — appending such an event to the input
leaves all three tables unchanged, because the page filter runs before each
derivation. -/
theorem non_nextsong_no_rows (tz : Int) (songs : List SongRow)
    (artists : List ArtistRow) (logs : List LogRecord) (e : LogRecord)
    (he : ¬ e.page = some "NextSong") :
    users_table (logs ++ [e]) = users_table logs
    ∧ time_table tz (logs ++ [e]) = time_table tz logs
    ∧ songplays_table tz songs artists (logs ++ [e])
        = songplays_table tz songs artists logs := by
  have hfil : filterNextSong (logs ++ [e]) = filterNextSong logs := by
    unfold filterNextSong
    rw [List.filter_append]
    have hnil : [e].filter (fun l => eqOpt l.page (some "NextSong")) = [] := by
      rw [List.filter_eq_nil_iff]
      intro x hx hq
      rw [List.mem_singleton] at hx
      subst hx
      obtain ⟨v, hv1, hv2⟩ := (eqOpt_iff _ _).mp hq
      injection hv2 with h2
      subst h2
      exact he hv1
    rw [hnil, List.append_nil]
  refine ⟨?_, ?_, ?_⟩
  · unfold users_table; rw [hfil]
  · unfold time_table; rw [hfil]
  · unfold songplays_table; rw [hfil]

/-- Witness for C8: a "Home" event appended to the sample input changes
none of the three tables. -/
theorem non_nextsong_witness :
    users_table ([l0] ++ [eHome]) = users_table [l0]
    ∧ time_table 0 ([l0] ++ [eHome]) = time_table 0 [l0]
    ∧ songplays_table 0 (songs_table [r0]) (artists_table [r0]) ([l0] ++ [eHome])
        = songplays_table 0 (songs_table [r0]) (artists_table [r0]) [l0] :=
  non_nextsong_no_rows 0 (songs_table [r0]) (artists_table [r0]) [l0] eHome
    (by decide)

/-- C9: two runs of the whole job on the same input and a clean destination
produce identical songs, artists, users and time tables and identical
songplays row contents; only the generated `songplay_id` values may differ
between runs, and within one run (whose id assignment is injective) they are
pairwise distinct. -/
theorem runJob_deterministic_mod_ids (tz : Int) (songRecs : List SongRecord)
    (logRecs : List LogRecord) (f g : Nat → Int)
    (hf : Function.Injective f) :
    (runJob tz f songRecs logRecs).songs = (runJob tz g songRecs logRecs).songs
    ∧ (runJob tz f songRecs logRecs).artists
        = (runJob tz g songRecs logRecs).artists
    ∧ (runJob tz f songRecs logRecs).users = (runJob tz g songRecs logRecs).users
    ∧ (runJob tz f songRecs logRecs).time = (runJob tz g songRecs logRecs).time
    ∧ (runJob tz f songRecs logRecs).songplays.map Prod.snd
        = (runJob tz g songRecs logRecs).songplays.map Prod.snd
    ∧ ((runJob tz f songRecs logRecs).songplays.map Prod.fst).Nodup := by
  refine ⟨rfl, rfl, rfl, rfl, ?_, ?_⟩
  · show (withIds f _).map Prod.snd = (withIds g _).map Prod.snd
    unfold withIds
    rw [List.map_map, List.map_map]
    have hcomp : ∀ h : Nat → Int,
        (Prod.snd ∘ fun p : Nat × SongplayRow => (h p.1, p.2)) = Prod.snd := by
      intro h; funext p; rfl
    rw [hcomp f, hcomp g]
  · show ((withIds f _).map Prod.fst).Nodup
    unfold withIds
    rw [List.map_map]
    have hcomp : (Prod.fst ∘ fun p : Nat × SongplayRow => (f p.1, p.2))
        = f ∘ Prod.fst := rfl
    rw [hcomp, ← List.map_map, List.enum_map_fst]
    exact (List.nodup_range _).map hf

/-- Witness for C9 at the sample input with two different id assignments. -/
theorem runJob_witness :
    ((runJob 0 (fun n => Int.ofNat n) [r0] [l0]).songplays.map Prod.fst).Nodup :=
  (runJob_deterministic_mod_ids 0 [r0] [l0] (fun n => Int.ofNat n)
    (fun n => Int.ofNat n + 1) (fun _ _ h => Int.ofNat.inj h)).2.2.2.2.2

/-- Rows contributed by one log event carry that event's derived timestamp. -/
theorem songplayContrib_start_time (tz : Int) (songs : List SongRow)
    (artists : List ArtistRow) (l : LogRecord) (r : SongplayRow)
    (hr : r ∈ songplayContrib tz songs artists l) :
    r.start_time = get_timestamp tz l.ts := by
  unfold songplayContrib at hr
  obtain ⟨s, _, hr2⟩ := List.mem_flatMap.mp hr
  obtain ⟨a, _, rfl⟩ := List.mem_map.mp hr2
  rfl

/-- C10: referential integrity of songplays timestamps — every songplays
row's start_time also appears as a start_time of the time table, since both
are derived from the same filtered, timestamp-extended log events. -/
theorem songplays_start_time_in_time (tz : Int) (songs : List SongRow)
    (artists : List ArtistRow) (logs : List LogRecord) (r : SongplayRow)
    (hr : r ∈ songplays_table tz songs artists logs) :
    r.start_time ∈ (time_table tz logs).map (fun t => t.start_time) := by
  unfold songplays_table at hr
  obtain ⟨l, hl, hrc⟩ := List.mem_flatMap.mp hr
  rw [songplayContrib_start_time tz songs artists l r hrc]
  rw [List.mem_map]
  refine ⟨timeRowOf (get_timestamp tz l.ts), ?_, rfl⟩
  rw [time_table, List.mem_dedup]
  exact List.mem_map_of_mem _ hl

/-- Witness for C10 at the sample songplays row. -/
theorem songplays_start_time_witness :
    (songplayRow 0 l0 ⟨some "S1", some "T", some "A1", some 1971, some 200⟩
      ⟨some "A1", some "N", some "Loc", none, none⟩).start_time
      ∈ (time_table 0 [l0]).map (fun t => t.start_time) :=
  songplays_start_time_in_time 0 (songs_table [r0]) (artists_table [r0]) [l0] _
    (by decide)
